import Mathlib

/-!
Verification development for the `vscode-setup-check` CLI
(`src/vscode-setup-check/index.js`).

The program is a single-pass sequence of shell-command probes that classify
outcomes and append to a global results accumulator, then print a summary.
We shallowly embed it as pure Lean functions:

* JS strings are `List Char` (`Str`); the JS string operations used by the
  program (`trim`, `split('\n')`, `toLowerCase`, `includes`, array
  `includes`) are executable Lean functions defined below.  `toLowerCase`
  is modelled on the ASCII letters, the only ones occurring in the
  program's identifiers.
* The process environment (execSync results, fs.existsSync, os.platform,
  env vars, argv) is a record `Env`; `execSync` is a function from the
  command line to `Option Str` (`none` = the call threw).
* Each probe returns a `Step`: the list of commands it executed, the lines
  it printed (ANSI colour codes elided; one entry per `console.log`/`print`
  call, embedded newlines kept), and the updated accumulator.
-/

namespace VSC

/-- JS strings, embedded as lists of characters. -/
abbrev Str := List Char

/-- Literal helper: a Lean string literal as a `Str`. -/
def str (s : String) : Str := s.toList

/-- The whitespace characters relevant to JS `trim` for this program's
command outputs (ASCII space, tab, newline, carriage return). -/
def isWs (c : Char) : Bool := c == ' ' || c == '\t' || c == '\n' || c == '\r'

/-- JS `String.prototype.trim`: drop whitespace from both ends. -/
def jsTrim (l : Str) : Str :=
  ((l.dropWhile isWs).reverse.dropWhile isWs).reverse

/-- JS `String.prototype.split(sep)` for a one-character separator.
`split` never returns an empty array: splitting the empty string gives
`[""]`. -/
def jsSplit (sep : Char) : Str → List Str
  | [] => [[]]
  | c :: cs =>
    let r := jsSplit sep cs
    if c = sep then [] :: r
    else
      match r with
      | [] => [[c]]
      | h :: t => (c :: h) :: t

/-- JS `String.prototype.toLowerCase` on one character, for the ASCII
letters (the only case-carrying characters in the program's data). -/
def jsLowerChar : Char → Char
  | 'A' => 'a' | 'B' => 'b' | 'C' => 'c' | 'D' => 'd' | 'E' => 'e'
  | 'F' => 'f' | 'G' => 'g' | 'H' => 'h' | 'I' => 'i' | 'J' => 'j'
  | 'K' => 'k' | 'L' => 'l' | 'M' => 'm' | 'N' => 'n' | 'O' => 'o'
  | 'P' => 'p' | 'Q' => 'q' | 'R' => 'r' | 'S' => 's' | 'T' => 't'
  | 'U' => 'u' | 'V' => 'v' | 'W' => 'w' | 'X' => 'x' | 'Y' => 'y'
  | 'Z' => 'z'
  | c => c

/-- JS `String.prototype.toLowerCase`. -/
def jsToLower (l : Str) : Str := l.map jsLowerChar

/-- Does `pat` stand at the front of `s`? (helper for `jsIncludes`). -/
def leadsWith : Str → Str → Bool
  | [], _ => true
  | _ :: _, [] => false
  | p :: ps, c :: cs => p == c && leadsWith ps cs

/-- JS `String.prototype.includes`: does `pat` occur in `s` as a contiguous
substring? -/
def jsIncludes (s pat : Str) : Bool :=
  match s with
  | [] => pat.isEmpty
  | _ :: cs => leadsWith pat s || jsIncludes cs pat

/-- Does `s` end with `pat`? (spec-side notion of a domain-suffix match;
not used by the program itself). -/
def endsWith (s pat : Str) : Bool := leadsWith pat.reverse s.reverse

/-- JS `Array.prototype.includes` on arrays of strings (strict equality). -/
def arrIncludes : List Str → Str → Bool
  | [], _ => false
  | y :: ys, x => (y == x) || arrIncludes ys x

/-- Decimal rendering of a count, as interpolated by a JS template
literal. -/
def natStr (n : Nat) : Str := (Nat.repr n).toList

/-- JS truthiness of a nullable string: `null` and the empty string are
falsy.  `asTruthy x` is `some s` exactly when `x` holds a nonempty
string `s`. -/
def asTruthy : Option Str → Option Str
  | none => none
  | some s => if s.isEmpty then none else some s

/-- Wrap a path in double quotes, as the probe command lines do. -/
def quote (s : Str) : Str := '\"' :: s ++ ['\"']

/-- Criticality levels (index.js `CRITICALITY LEVELS`). -/
inductive Crit
  | critical
  | important
  | optional
deriving DecidableEq

/-- Outcome status of one check (the `status` argument of `printResult`). -/
inductive Status
  | success
  | failure
  | warning
deriving DecidableEq

/-- The global `results` accumulator (index.js lines 58-65): six
append-only lists. -/
structure Results where
  passed : List Str
  failed : List Str
  warnings : List Str
  critical : List Str
  important : List Str
  optional : List Str
deriving DecidableEq

/-- The accumulator's initial value. -/
def emptyResults : Results := ⟨[], [], [], [], [], []⟩

/-- Status symbols (index.js `symbols`). -/
def statusSym : Status → Str
  | .success => str "✓"
  | .failure => str "✗"
  | .warning => str "⚠"

/-- Criticality names as printed (index.js `printResult`). -/
def critName : Crit → Str
  | .critical => str "CRITICAL"
  | .important => str "IMPORTANT"
  | .optional => str "OPTIONAL"

/-- Criticality symbols (index.js `critSymbols`). -/
def critSym : Crit → Str
  | .critical => str "🔴"
  | .important => str "🟡"
  | .optional => str "🟢"

/-- Push a message into the severity bucket named by `c`
(index.js lines 203-209). -/
def pushBucket (c : Crit) (m : Str) (r : Results) : Results :=
  match c with
  | .critical => { r with critical := r.critical ++ [m] }
  | .important => { r with important := r.important ++ [m] }
  | .optional => { r with optional := r.optional ++ [m] }

/-- `printResult(status, message, details, options)` (index.js lines
180-232): prints the symbol line, the optional details line, and — for
failures only — the criticality line (also pushing the message into the
matching severity bucket), the fix steps and the guide link; a spacing
line follows failures and warnings that carry fix steps.  Returns the
printed lines and the updated accumulator. -/
def printResult (status : Status) (message : Str) (details : Str)
    (crit : Option Crit) (fix : Option (List Str)) (link : Option Str)
    (r : Results) : List Str × Results :=
  let line1 := statusSym status ++ str " " ++ message
  let detLines : List Str := if details.isEmpty then [] else [str "  " ++ details]
  let critLines : List Str :=
    match status, crit with
    | .failure, some c =>
        [str "  " ++ critSym c ++ str " Criticality: " ++ critName c]
    | _, _ => []
  let r' : Results :=
    match status, crit with
    | .failure, some c => pushBucket c message r
    | _, _ => r
  let fixLines : List Str :=
    match status, fix with
    | .failure, some steps =>
        (str "  💡 How to fix:") ::
          (steps.enum.map fun p => str "     " ++ natStr (p.1 + 1) ++ str ". " ++ p.2)
    | _, _ => []
  let linkLines : List Str :=
    match link with
    | some l => [str "  📖 Guide: " ++ l]
    | none => []
  let spacer : List Str :=
    if status = Status.failure ∨ (status = Status.warning ∧ fix.isSome)
    then [str ""] else []
  (line1 :: (detLines ++ critLines ++ fixLines ++ linkLines ++ spacer), r')

/-- The three platform families distinguished by `os.platform()` in
index.js (`win32`, `darwin`, anything else = Linux branch). -/
inductive Platform
  | win32
  | darwin
  | other
deriving DecidableEq

/-- The process environment: `execSync` as a function from command line to
raw output (`none` = the call threw), `fs.existsSync`, `os.platform()`,
`os.homedir()`, the Windows env vars consulted for install paths,
`process.cwd()` and `process.argv`. -/
structure Env where
  platform : Platform
  run : Str → Option Str
  existsSync : Str → Bool
  homedir : Str
  localAppData : Option Str
  programFiles : Option Str
  programFilesX86 : Option Str
  cwd : Str
  argv : List Str

/-- `executeCommand` (index.js lines 112-118): run the command, return the
trimmed output, or `null` when execution threw. -/
def executeCommand (env : Env) (cmd : Str) : Option Str :=
  (env.run cmd).map jsTrim

/-- What one probe did: the command lines it executed, the lines it
printed, and the accumulator it left behind. -/
structure Step where
  cmds : List Str
  out : List Str
  res : Results
deriving DecidableEq

/-- A row of 60 equals signs (`'='.repeat(60)`). -/
def eq60 : Str := List.replicate 60 '='

/-- `printHeader(title)` (index.js lines 171-175). -/
def headerOut (title : Str) : List Str :=
  [str "\n" ++ eq60, title, eq60 ++ str "\n"]

/-- The guide link attached to fix instructions. -/
def guideLink : Str :=
  str "https://github.com/DigitalFuturesOCADU/atelier1-fall2025/tree/main/guide"

/-- The platform-appropriate locate-in-path command
(`where code.cmd` / `which code`). -/
def whichCmd (env : Env) : Str :=
  if env.platform = Platform.win32 then str "where code.cmd" else str "which code"

/-- `path.join`, abstracted to joining the segments with `/` (the
concrete separator never matters to the program's logic). -/
def pathJoin (parts : List Str) : Str := List.intercalate (str "/") parts

/-- `findVSCodePath` (index.js lines 124-159): try the locate-in-path
command; if it succeeds return the bare command name, otherwise return the
first existing path among the platform's conventional install locations.
Returns the commands executed alongside the result. -/
def findVSCodePath (env : Env) : List Str × Option Str :=
  let wc := whichCmd env
  let inPath := executeCommand env wc
  if (asTruthy inPath).isSome then
    ([wc], some (if env.platform = Platform.win32 then str "code.cmd" else str "code"))
  else
    let possiblePaths : List Str :=
      match env.platform with
      | .darwin =>
          [str "/Applications/Visual Studio Code.app/Contents/Resources/app/bin/code",
           pathJoin [env.homedir, str "Applications/Visual Studio Code.app/Contents/Resources/app/bin/code"]]
      | .win32 =>
          [pathJoin [env.localAppData.getD [], str "Programs", str "Microsoft VS Code", str "bin", str "code.cmd"],
           pathJoin [env.programFiles.getD (str "C:\\Program Files"), str "Microsoft VS Code", str "bin", str "code.cmd"],
           pathJoin [env.programFilesX86.getD (str "C:\\Program Files (x86)"), str "Microsoft VS Code", str "bin", str "code.cmd"]]
      | .other =>
          [str "/usr/bin/code", str "/usr/local/bin/code",
           pathJoin [env.homedir, str ".vscode-server", str "bin", str "code"]]
    ([wc], possiblePaths.find? env.existsSync)

/-- The fix steps shown when VS Code is installed but not on PATH
(index.js lines 263-282), keyed by platform. -/
def notInPathFix (p : Platform) : List Str :=
  match p with
  | .darwin =>
      [str "To add VS Code to PATH:",
       str "  1. Open VS Code",
       str "  2. Press Cmd+Shift+P to open Command Palette",
       str "  3. Type \"shell command\"",
       str "  4. Select \"Shell Command: Install 'code' command in PATH\"",
       str "  5. Restart terminal",
       str "",
       str "Note: This is OPTIONAL. Extensions check will still work."]
  | .win32 =>
      [str "To add VS Code to PATH:",
       str "  1. Reinstall VS Code from: https://code.visualstudio.com/download",
       str "  2. During installation, check \"Add to PATH\" option",
       str "  3. Restart your computer",
       str "",
       str "Note: This is OPTIONAL. Extensions check will still work."]
  | .other =>
      [str "Add VS Code to your PATH manually or reinstall from:",
       str "https://code.visualstudio.com/download"]

/-- `checkVSCode` (index.js lines 237-311): discover the editor path; when
found and its version query yields a usable result, report success (and,
when not path-resolvable, an optional-severity warning); otherwise report
a critical failure.  Returns the step and the discovered path (passed on
to the extension probe). -/
def checkVSCode (env : Env) (r : Results) : Step × Option Str :=
  let hdr := headerOut (str "Checking VS Code Installation")
  let fp := findVSCodePath env
  let isMac := env.platform = Platform.darwin
  let isWindows := env.platform = Platform.win32
  let fixSteps : List Str :=
    [str "Download and install VS Code from: https://code.visualstudio.com/download",
     if isMac then str "For Mac: Download the .dmg file and drag to Applications"
     else if isWindows then str "For Windows: Download the installer and check \"Add to PATH\""
     else str "Follow the installation instructions for your OS",
     str "Restart your terminal after installation"]
  let notFound : List Str → Step × Option Str := fun cmds =>
    let pr := printResult .failure (str "VS Code is NOT installed")
      (str "Required for development") (some .critical) (some fixSteps)
      (some guideLink) r
    (⟨cmds, hdr ++ pr.1,
      { pr.2 with failed := pr.2.failed ++ [str "VS Code not found"] }⟩, none)
  match fp.2 with
  | some vscodePath =>
    let verCmd := quote vscodePath ++ str " --version"
    let version := executeCommand env verCmd
    match asTruthy version with
    | some v =>
      let versionNumber := (jsSplit '\n' v).headD []
      let wc := whichCmd env
      let inPath := executeCommand env wc
      if (asTruthy inPath).isSome then
        let pr := printResult .success (str "VS Code is installed and in PATH")
          (str "Version: " ++ versionNumber) none none none r
        (⟨fp.1 ++ [verCmd, wc], hdr ++ pr.1,
          { pr.2 with passed := pr.2.passed ++ [str "VS Code in PATH"] }⟩,
         some vscodePath)
      else
        let pr1 := printResult .success (str "VS Code is installed")
          (str "Version: " ++ versionNumber) none none none r
        let r1 := { pr1.2 with passed := pr1.2.passed ++ [str "VS Code installed"] }
        let pr2 := printResult .warning (str "VS Code is NOT in PATH")
          (str "Recommended for better terminal integration") (some .optional)
          (some (notInPathFix env.platform)) none r1
        let r2 := { pr2.2 with warnings := pr2.2.warnings ++ [str "VS Code not in PATH"] }
        (⟨fp.1 ++ [verCmd, wc], hdr ++ pr1.1 ++ pr2.1, r2⟩, some vscodePath)
    | none => notFound (fp.1 ++ [verCmd])
  | none => notFound fp.1

/-- One entry of the fixed required-extensions table. -/
structure ExtReq where
  id : Str
  name : Str
  criticality : Crit
  reason : Str

/-- The `requiredExtensions` table (index.js lines 319-345), in insertion
order. -/
def requiredExtensions : List ExtReq :=
  [⟨str "eamodio.gitlens", str "GitLens", .important,
    str "Enhances Git workflow and visualization"⟩,
   ⟨str "acidic9.p5js-snippets", str "p5js Snippets", .important,
    str "Provides code snippets for P5.js development"⟩,
   ⟨str "ultamatum.p5-project-creator", str "P5 Project Creator", .critical,
    str "Required to create P5.js projects in VS Code"⟩,
   ⟨str "ritwickdey.liveserver", str "Live Server", .critical,
    str "Required to run local development server"⟩,
   ⟨str "github.vscode-github-actions", str "GitHub Actions", .optional,
    str "Helpful for managing GitHub deployments"⟩]

/-- The membership test the extension probe applies to each required
identifier (index.js lines 363-366): lowercase the installed-extensions
output, split it into lines, and ask for array membership of the
lowercased identifier. -/
def extInstalled (installed : Str) (extId : Str) : Bool :=
  arrIncludes (jsSplit '\n' (jsToLower installed)) (jsToLower extId)

/-- The body of the extension probe's per-extension loop (index.js lines
365-392).  `installed` is the (trimmed) output of the list-extensions
command; the source hoists the lowercase-and-split out of the loop, which
`extInstalled` recomputes equivalently. -/
def extStep (env : Env) (vscodePath : Str) (installed : Str) (acc : Step)
    (e : ExtReq) : Step :=
  if extInstalled installed e.id then
    let pr := printResult .success (e.name ++ str " is installed") [] none none none acc.res
    ⟨acc.cmds, acc.out ++ pr.1,
     { pr.2 with passed := pr.2.passed ++ [str "Extension: " ++ e.name] }⟩
  else
    let wc := whichCmd env
    let inPath := executeCommand env wc
    let installCommand :=
      if (asTruthy inPath).isSome then str "code --install-extension " ++ e.id
      else quote vscodePath ++ str " --install-extension " ++ e.id
    let fixArr : List Str :=
      [str "Quick install: Run this command in terminal:",
       str "  " ++ installCommand,
       str "",
       str "Or install manually:",
       str "  1. Open VS Code",
       str "  2. Press Cmd+Shift+X (Mac) or Ctrl+Shift+X (Windows)",
       str "  3. Search for \"" ++ e.name ++ str "\"",
       str "  4. Click Install"]
    let pr := printResult .failure (e.name ++ str " is NOT installed") e.reason
      (some e.criticality) (some fixArr) (some guideLink) acc.res
    ⟨acc.cmds ++ [wc], acc.out ++ pr.1,
     { pr.2 with failed := pr.2.failed ++ [str "Extension: " ++ e.name] }⟩

/-- `checkExtensions(vscodePath)` (index.js lines 316-393): skip with an
informational line when the editor path is absent or the list-extensions
command yields no usable output; otherwise run the per-extension loop. -/
def checkExtensions (env : Env) (vscodePath : Option Str) (r : Results) : Step :=
  let hdr := headerOut (str "Checking VS Code Extensions")
  match vscodePath with
  | none =>
    ⟨[], hdr ++ [str "⊘ Skipping extensions check - VS Code not found",
                 str "  Install VS Code first, then run this script again"], r⟩
  | some p =>
    let listCmd := quote p ++ str " --list-extensions"
    let installedExtensions := executeCommand env listCmd
    match asTruthy installedExtensions with
    | none =>
      ⟨[listCmd], hdr ++ [str "⊘ Could not retrieve extensions list",
                          str "  This might be a temporary issue. Try running the script again.",
                          str "  Or manually verify extensions in VS Code (Cmd/Ctrl+Shift+X)"], r⟩
    | some installed =>
      requiredExtensions.foldl (extStep env p installed) ⟨[listCmd], hdr, r⟩

/-- The fix steps attached to the non-institutional-email warning
(index.js lines 461-469); the fourth step echoes the current email. -/
def emailWarnFix (userEmail : Str) : List Str :=
  [str "To use your OCADU email:",
   str "  git config --global user.email \"your.email@ocadu.ca\"",
   str "",
   str "Current email: " ++ userEmail,
   str "",
   str "Note: This is OPTIONAL. Your current setup works fine.",
   str "OCADU email only needed for GitHub Education benefits."]

/-- The OCADU-domain sub-check on a configured user email (index.js lines
455-472): JS substring containment of either institutional domain string
decides between a plain success and an optional-severity warning whose fix
payload echoes the current email. -/
def gitEmailSection (userEmail : Str) (r : Results) : List Str × Results :=
  if jsIncludes userEmail (str "@ocadu.ca") || jsIncludes userEmail (str "@ocad.ca") then
    let pr := printResult .success (str "Using OCADU email address") [] none none none r
    (pr.1, { pr.2 with passed := pr.2.passed ++ [str "OCADU email configured"] })
  else
    let pr := printResult .warning (str "Not using OCADU email address")
      (str "Recommended for GitHub Education benefits") (some .optional)
      (some (emailWarnFix userEmail)) none r
    (pr.1, { pr.2 with warnings := pr.2.warnings ++ [str "Non-OCADU email"] })

/-- `checkGit` (index.js lines 398-486): tool presence (critical failure
and early return when absent), then the global user-name and user-email
identity checks, with the OCADU-domain sub-check on a configured email. -/
def checkGit (env : Env) (r : Results) : Step :=
  let hdr := headerOut (str "Checking Git Installation & Configuration")
  let verCmd := str "git --version"
  let gitVersion := executeCommand env verCmd
  match asTruthy gitVersion with
  | none =>
    let fixSteps : List Str :=
      if env.platform = Platform.darwin then
        [str "Install Xcode Command Line Tools:",
         str "  Run: xcode-select --install",
         str "Follow the installation prompts",
         str "Or download Git from: https://git-scm.com/downloads"]
      else
        [str "Download Git from: https://git-scm.com/downloads",
         str "Run the installer",
         str "Use default settings",
         str "Restart your terminal after installation"]
    let pr := printResult .failure (str "Git is NOT installed")
      (str "Required for version control") (some .critical) (some fixSteps)
      (some guideLink) r
    ⟨[verCmd], hdr ++ pr.1,
     { pr.2 with failed := pr.2.failed ++ [str "Git not found"] }⟩
  | some v =>
    let pr0 := printResult .success (str "Git is installed") v none none none r
    let r0 := { pr0.2 with passed := pr0.2.passed ++ [str "Git installed"] }
    let nameCmd := str "git config --global user.name"
    let emailCmd := str "git config --global user.email"
    let userName := executeCommand env nameCmd
    let userEmail := executeCommand env emailCmd
    let (outN, r1) :=
      match asTruthy userName with
      | some n =>
        let pr := printResult .success (str "Git user.name is configured")
          (str "Name: " ++ n) none none none r0
        (pr.1, { pr.2 with passed := pr.2.passed ++ [str "Git user.name set"] })
      | none =>
        let pr := printResult .failure (str "Git user.name is NOT configured")
          (str "Required for Git commits") (some .critical)
          (some [str "Run this command in terminal:",
                 str "  git config --global user.name \"Your Full Name\"",
                 str "",
                 str "Example:",
                 str "  git config --global user.name \"Jane Smith\""]) none r0
        (pr.1, { pr.2 with failed := pr.2.failed ++ [str "Git user.name not set"] })
    let (outE, r2) :=
      match asTruthy userEmail with
      | some e =>
        let pr := printResult .success (str "Git user.email is configured")
          (str "Email: " ++ e) none none none r1
        let rE := { pr.2 with passed := pr.2.passed ++ [str "Git user.email set"] }
        let sub := gitEmailSection e rE
        (pr.1 ++ sub.1, sub.2)
      | none =>
        let pr := printResult .failure (str "Git user.email is NOT configured")
          (str "Required for Git commits") (some .critical)
          (some [str "Run this command in terminal:",
                 str "  git config --global user.email \"your.email@ocadu.ca\"",
                 str "",
                 str "Example:",
                 str "  git config --global user.email \"jane.smith@ocadu.ca\""]) none r1
        (pr.1, { pr.2 with failed := pr.2.failed ++ [str "Git user.email not set"] })
    ⟨[verCmd, nameCmd, emailCmd], hdr ++ pr0.1 ++ outN ++ outE, r2⟩

/-- `checkNode` (index.js lines 491-533): the runtime and package-manager
version queries. -/
def checkNode (env : Env) (r : Results) : Step :=
  let hdr := headerOut (str "Checking Node.js Installation")
  let nodeCmd := str "node --version"
  let npmCmd := str "npm --version"
  let nodeVersion := executeCommand env nodeCmd
  let npmVersion := executeCommand env npmCmd
  let (outNode, r1) :=
    match asTruthy nodeVersion with
    | some v =>
      let pr := printResult .success (str "Node.js is installed") v none none none r
      (pr.1, { pr.2 with passed := pr.2.passed ++ [str "Node.js installed"] })
    | none =>
      let pr := printResult .failure (str "Node.js is NOT installed")
        (str "Required to run this verification script") (some .important)
        (some [str "Download Node.js LTS version from: https://nodejs.org/",
               str "Run the installer (includes npm)",
               str "Use default installation settings",
               str "Restart terminal after installation",
               str "",
               str "Note: You're seeing this message because Node.js IS installed",
               str "(otherwise this script wouldn't run!). This check failed due to",
               str "a technical issue, but you can safely ignore it."])
        (some guideLink) r
      (pr.1, { pr.2 with failed := pr.2.failed ++ [str "Node.js not found"] })
  let (outNpm, r2) :=
    match asTruthy npmVersion with
    | some v =>
      let pr := printResult .success (str "npm is installed")
        (str "Version: " ++ v) none none none r1
      (pr.1, { pr.2 with passed := pr.2.passed ++ [str "npm installed"] })
    | none =>
      let pr := printResult .warning (str "npm is NOT installed")
        (str "Useful for managing packages") (some .optional)
        (some [str "npm usually comes with Node.js",
               str "Try reinstalling Node.js from: https://nodejs.org/",
               str "",
               str "Note: Not required for basic P5.js development"]) none r1
      (pr.1, { pr.2 with warnings := pr.2.warnings ++ [str "npm not found"] })
  ⟨[nodeCmd, npmCmd], hdr ++ outNode ++ outNpm, r2⟩

/-- The remote-URL section of the repository probe (index.js lines
549-577). -/
def repoRemotePart (env : Env) (r : Results) : Step :=
  let cmd := str "git remote get-url origin"
  let remoteUrl := executeCommand env cmd
  match asTruthy remoteUrl with
  | some u =>
    let pr := printResult .success (str "Remote repository configured") u none none none r
    let r1 := { pr.2 with passed := pr.2.passed ++ [str "Remote configured"] }
    if jsIncludes u (str "github.com") then
      let pr2 := printResult .success (str "Repository is hosted on GitHub") [] none none none r1
      ⟨[cmd], pr.1 ++ pr2.1,
       { pr2.2 with passed := pr2.2.passed ++ [str "GitHub repository"] }⟩
    else ⟨[cmd], pr.1, r1⟩
  | none =>
    let pr := printResult .warning (str "No remote repository configured")
      (str "Needed for GitHub Pages deployment") (some .important)
      (some [str "Create a GitHub repository first (if you haven't):",
             str "  1. Go to https://github.com/new",
             str "  2. Create a new repository",
             str "",
             str "Then connect it to this local repository:",
             str "  git remote add origin https://github.com/USERNAME/REPO-NAME.git",
             str "  git branch -M main",
             str "  git push -u origin main",
             str "",
             str "Replace USERNAME and REPO-NAME with your details"])
      (some guideLink) r
    ⟨[cmd], pr.1, { pr.2 with warnings := pr.2.warnings ++ [str "No remote configured"] }⟩

/-- The current-branch section of the repository probe (index.js lines
580-584): a success line when the branch query yields a usable result,
nothing otherwise. -/
def repoBranchPart (env : Env) (r : Results) : Step :=
  let cmd := str "git branch --show-current"
  let branch := executeCommand env cmd
  match asTruthy branch with
  | some b =>
    let pr := printResult .success (str "Current branch: " ++ b) [] none none none r
    ⟨[cmd], pr.1, { pr.2 with passed := pr.2.passed ++ [str "Branch: " ++ b] }⟩
  | none => ⟨[cmd], [], r⟩

/-- The uncommitted-changes section of the repository probe (index.js
lines 587-608): a blank (or failed) status query is reported as a clean
working directory; otherwise the line count of the status output is
reported as the number of uncommitted changes. -/
def repoStatusPart (env : Env) (r : Results) : Step :=
  let cmd := str "git status --porcelain"
  let status := executeCommand env cmd
  match asTruthy status with
  | some s =>
    let fileCount := (jsSplit '\n' (jsTrim s)).length
    let pr := printResult .warning
      (str "You have " ++ natStr fileCount ++ str " uncommitted change(s)")
      (str "Not critical, but good practice to commit regularly") (some .optional)
      (some [str "To see what files changed:",
             str "  git status",
             str "",
             str "To commit your changes:",
             str "  git add .",
             str "  git commit -m \"Describe your changes\"",
             str "  git push",
             str "",
             str "Note: This is OPTIONAL. Uncommitted changes don't break anything."]) none r
    ⟨[cmd], pr.1, { pr.2 with warnings := pr.2.warnings ++ [str "Uncommitted changes"] }⟩
  | none =>
    let pr := printResult .success (str "Working directory is clean") [] none none none r
    ⟨[cmd], pr.1, { pr.2 with passed := pr.2.passed ++ [str "Clean working directory"] }⟩

/-- `checkLocalRepo` (index.js lines 538-626): when no version-control
metadata directory exists in the working directory, a single
optional-severity warning; otherwise the repository, remote, branch and
status sections. -/
def checkLocalRepo (env : Env) (r : Results) : Step :=
  let hdr := headerOut (str "Checking Local Repository")
  let gitDir := pathJoin [env.cwd, str ".git"]
  if env.existsSync gitDir then
    let pr := printResult .success (str "Current directory is a Git repository") [] none none none r
    let r0 := { pr.2 with passed := pr.2.passed ++ [str "Git repository found"] }
    let s1 := repoRemotePart env r0
    let s2 := repoBranchPart env s1.res
    let s3 := repoStatusPart env s2.res
    ⟨s1.cmds ++ s2.cmds ++ s3.cmds, hdr ++ pr.1 ++ s1.out ++ s2.out ++ s3.out, s3.res⟩
  else
    let pr := printResult .warning (str "Current directory is NOT a Git repository")
      (str "Run from your project folder for repository checks") (some .optional)
      (some [str "This is OPTIONAL - you can run this script from anywhere.",
             str "For repository-specific checks, navigate to your project first:",
             str "  cd path/to/your/repository",
             str "  npx @digitalfutures/vscode-setup-check",
             str "",
             str "Or if you don't have a repository yet, see the setup guide.",
             str "",
             str "Current directory: " ++ env.cwd])
      (some guideLink) r
    ⟨[], hdr ++ pr.1, { pr.2 with warnings := pr.2.warnings ++ [str "Not in Git repository"] }⟩

/-- `printManualChecklist` (index.js lines 631-653): fixed unconditional
output, no commands, no accumulator effect. -/
def manualChecklistOut : List Str :=
  headerOut (str "Manual Verification Checklist") ++
  [str "\nThe following items require manual verification:",
   str "\n☐ GitHub account created with @ocadu.ca email",
   str "☐ Signed into VS Code with GitHub account",
   str "☐ GitHub Desktop installed and signed in",
   str "☐ GitHub Mobile app installed on phone",
   str "☐ GitLens extension authorized in VS Code",
   str "☐ GitHub Actions extension authorized in VS Code",
   str "☐ GitHub Copilot Pro subscription activated",
   str "☐ Two-factor authentication enabled on GitHub",
   str "☐ GitHub repository created with Pages enabled",
   str "☐ GitHub Actions workflow configured",
   str "☐ Repository cloned locally",
   str "☐ Can create P5.js project using Command Palette",
   str "☐ Live Server can launch local development server",
   str "☐ VS Code Tunnel can be created and accessed",
   str "☐ Chrome DevTools accessible (F12 or Cmd+Option+I)",
   str "\n📚 Refer to the setup guides at:",
   str "   https://github.com/DigitalFuturesOCADU/atelier1-fall2025/tree/main/guide"]

/-- The completion percentage of `printSummary` (index.js line 662):
`Math.round((passed / total) * 100)` behind a `total > 0` guard, `0`
otherwise.  JS number division is modelled by exact rational division
(exact for every value the rounding can distinguish at these
magnitudes); `round` is round-half-up, as `Math.round` on nonnegative
arguments. -/
def passRate (p f w : ℕ) : ℤ :=
  let total := p + f + w
  if total > 0 then round (((p : ℚ) / (total : ℚ)) * 100) else 0

/-- The four-way summary-message selection of `printSummary` (index.js
lines 687-700), on the four accumulator counts; `0` = the all-clear
message, `1` = working-correctly, `2` = must-fix, `3` = the
recommended-items default. -/
def summarySelect (c i f w : ℕ) : ℕ :=
  if f = 0 ∧ w = 0 then 0
  else if c = 0 ∧ i = 0 then 1
  else if c > 0 then 2
  else 3

/-- The two-or-three print calls of each summary-message case. -/
def summaryMsgLines (sel : ℕ) : List Str :=
  if sel = 0 then
    [str "🎉 Perfect! All automated checks passed!",
     str "Please complete the manual verification checklist above."]
  else if sel = 1 then
    [str "✅ Your system is working correctly!",
     str "The failed/warning items are OPTIONAL and don't affect functionality.",
     str "You can safely proceed with development."]
  else if sel = 2 then
    [str "🔴 CRITICAL issues found - these must be fixed!",
     str "Review the fix instructions above for each critical item."]
  else
    [str "⚠️  Some recommended items need attention.",
     str "Your system may work, but fixing these will improve functionality."]

/-- `printSummary` (index.js lines 658-706): the tally, completion
percentage, severity breakdown, the selected summary message, and the
footer. -/
def printSummary (r : Results) : List Str :=
  let hdr := headerOut (str "Setup Verification Summary")
  let rate := passRate r.passed.length r.failed.length r.warnings.length
  let counts :=
    [str "\n✓ Passed: " ++ natStr r.passed.length,
     str "✗ Failed: " ++ natStr r.failed.length,
     str "⚠ Warnings: " ++ natStr r.warnings.length,
     str "\nCompletion Rate: " ++ (toString rate).toList ++ str "%"]
  let breakdown : List Str :=
    if r.critical.length > 0 ∨ r.important.length > 0 ∨ r.optional.length > 0 then
      [str "\nFailed Items by Criticality:"] ++
      (if r.critical.length > 0 then
        [str "  🔴 Critical: " ++ natStr r.critical.length ++ str " - Must fix for development to work"]
       else []) ++
      (if r.important.length > 0 then
        [str "  🟡 Important: " ++ natStr r.important.length ++ str " - Recommended for full functionality"]
       else []) ++
      (if r.optional.length > 0 then
        [str "  🟢 Optional: " ++ natStr r.optional.length ++ str " - Nice to have, not required"]
       else [])
    else []
  let msg := summaryMsgLines
    (summarySelect r.critical.length r.important.length r.failed.length r.warnings.length)
  hdr ++ counts ++ breakdown ++ [str ""] ++ msg ++
  [str "\n📚 For detailed guides, visit:",
   str "   https://github.com/DigitalFuturesOCADU/atelier1-fall2025/tree/main/guide",
   str "❓ For help, run: npx @digitalfutures/vscode-setup-check --help",
   str "\n"]

/-- The banner printed by `main` before the probes (index.js lines
714-716; `console.clear()` elided): a box of 60 double-rule characters
around the title line. -/
def bannerOut : List Str :=
  ['╔' :: List.replicate 60 '═' ++ ['╗'],
   str "║   VS Code Mobile Development Setup Verification Script    ║",
   '╚' :: List.replicate 60 '═' ++ ['╝']]

/-- `main` (index.js lines 711-725): the probes in fixed order, threading
the accumulator from its empty initial value, the extension probe
receiving the editor path the editor probe discovered, then the manual
checklist and the summary. -/
def mainRun (env : Env) : Step :=
  let s1 := checkNode env emptyResults
  let vs := checkVSCode env s1.res
  let s2 := vs.1
  let s3 := checkExtensions env vs.2 s2.res
  let s4 := checkGit env s3.res
  let s5 := checkLocalRepo env s4.res
  ⟨s1.cmds ++ s2.cmds ++ s3.cmds ++ s4.cmds ++ s5.cmds,
   bannerOut ++ s1.out ++ s2.out ++ s3.out ++ s4.out ++ s5.out ++
     manualChecklistOut ++ printSummary s5.res,
   s5.res⟩

/-- The static `HELP_TEXT` usage text (index.js lines 68-101); the
underline row is 52 equals signs. -/
def helpText : Str :=
  str "\nVS Code Mobile Development Setup Verification Script\n" ++
  List.replicate 52 '=' ++ str "

USAGE:
  npx @digitalfutures/vscode-setup-check          Run verification checks
  npx @digitalfutures/vscode-setup-check --help   Show this help message

WHAT THIS SCRIPT DOES:
  Automatically verifies your development environment setup including:
  - Software installation (Node.js, VS Code, Git)
  - VS Code extensions (GitLens, p5js, Live Server, etc.)
  - Git configuration (username, email)
  - Repository status and structure (if run from a repo)

OUTPUT:
  ✓ Green checkmarks = Passed
  ✗ Red X marks = Failed (with fix instructions)
  ⚠ Yellow warnings = Attention needed

CRITICALITY LEVELS:
  🔴 CRITICAL   - Must be fixed for development to work
  🟡 IMPORTANT  - Recommended for full functionality
  🟢 OPTIONAL   - Nice to have, but not required

TROUBLESHOOTING:
  Each failed check includes:
  - Why it's important (criticality level)
  - How to fix it (automated script or manual steps)
  - Links to relevant documentation

For detailed setup instructions, see:
https://github.com/DigitalFuturesOCADU/atelier1-fall2025/tree/main/guide
"

/-- What one program run did: the step (commands, output, accumulator) and
the process exit status. -/
structure ProgRun where
  step : Step
  exitCode : ℕ
deriving DecidableEq

/-- The whole program (index.js lines 104-107 and 728): when the argument
vector carries a help flag, print the static usage text and exit 0 before
any probe runs; otherwise run `main` (which always ends with the success
exit status). -/
def program (env : Env) : ProgRun :=
  if env.argv.contains (str "--help") || env.argv.contains (str "-h") then
    ⟨⟨[], [helpText], emptyResults⟩, 0⟩
  else
    ⟨mainRun env, 0⟩

/-! ### Spec-side notions and basic lemmas about the string primitives -/

/-- Joining lines with newline separators: the spec-side inverse of
`jsSplit '\n'`, used to state hypotheses about command outputs that
consist of given lines. -/
def joinLines : List Str → Str
  | [] => []
  | [l] => l
  | l :: ls => l ++ '\n' :: joinLines ls

theorem arrIncludes_iff (l : List Str) (x : Str) :
    arrIncludes l x = true ↔ x ∈ l := by
  induction l with
  | nil => simp [arrIncludes]
  | cons y ys ih =>
    simp only [arrIncludes, Bool.or_eq_true, beq_iff_eq, ih, List.mem_cons]
    exact or_congr eq_comm Iff.rfl

theorem jsSplit_ne_nil (sep : Char) (l : Str) : jsSplit sep l ≠ [] := by
  cases l with
  | nil => simp [jsSplit]
  | cons c cs =>
    simp only [jsSplit]
    split
    · simp
    · split <;> simp

theorem length_jsSplit (sep : Char) (l : Str) :
    (jsSplit sep l).length = l.count sep + 1 := by
  induction l with
  | nil => simp [jsSplit]
  | cons c cs ih =>
    simp only [jsSplit]
    by_cases hc : c = sep
    · subst hc
      rw [if_pos rfl]
      simp only [List.length_cons, ih, List.count_cons, beq_self_eq_true, if_true]
    · rw [if_neg hc]
      rcases hr : jsSplit sep cs with _ | ⟨h, t⟩
      · exact absurd hr (jsSplit_ne_nil sep cs)
      · have hlen := ih
        rw [hr] at hlen
        have hbc : (c == sep) = false := beq_eq_false_iff_ne.mpr hc
        simp only [List.length_cons] at hlen ⊢
        rw [List.count_cons, hbc]
        simp only [Bool.false_eq_true, if_false]
        omega

theorem jsLowerChar_eq_newline (c : Char) :
    jsLowerChar c = '\n' ↔ c = '\n' := by
  unfold jsLowerChar
  split <;> simp_all

theorem jsSplit_jsToLower (l : Str) :
    jsSplit '\n' (jsToLower l) = (jsSplit '\n' l).map jsToLower := by
  induction l with
  | nil => simp [jsSplit, jsToLower]
  | cons c cs ih =>
    simp only [jsToLower, List.map_cons, jsSplit]
    by_cases hc : c = '\n'
    · rw [if_pos ((jsLowerChar_eq_newline c).mpr hc), if_pos hc]
      simp only [List.map_cons]
      rw [← ih]
      rfl
    · rw [if_neg (fun h => hc ((jsLowerChar_eq_newline c).mp h)), if_neg hc]
      rcases hr : jsSplit '\n' cs with _ | ⟨h, t⟩
      · exact absurd hr (jsSplit_ne_nil '\n' cs)
      · have hmap : jsSplit '\n' (List.map jsLowerChar cs) =
            List.map jsToLower (h :: t) := by
          rw [← hr, ← ih]; rfl
        rw [hmap]
        rfl

theorem exists_not_ws_dropWhile (l : Str) (h : ∃ c ∈ l, isWs c = false) :
    ∃ c ∈ l.dropWhile isWs, isWs c = false := by
  induction l with
  | nil => simp at h
  | cons a as ih =>
    by_cases ha : isWs a
    · rw [List.dropWhile_cons_of_pos ha]
      apply ih
      rcases h with ⟨c, hc, hcw⟩
      rcases List.mem_cons.mp hc with rfl | hmem
      · exact absurd ha (by simp [hcw])
      · exact ⟨c, hmem, hcw⟩
    · rw [List.dropWhile_cons_of_neg ha]
      exact ⟨a, List.mem_cons_self a as, by simpa using ha⟩

theorem dropWhile_append_of_not_all (a b : Str)
    (h : ∃ c ∈ a, isWs c = false) :
    (a ++ b).dropWhile isWs = a.dropWhile isWs ++ b := by
  induction a with
  | nil => simp at h
  | cons x xs ih =>
    by_cases hx : isWs x
    · rw [List.cons_append, List.dropWhile_cons_of_pos hx,
        List.dropWhile_cons_of_pos hx]
      apply ih
      rcases h with ⟨c, hc, hcw⟩
      rcases List.mem_cons.mp hc with rfl | hmem
      · exact absurd hx (by simp [hcw])
      · exact ⟨c, hmem, hcw⟩
    · rw [List.cons_append, List.dropWhile_cons_of_neg hx,
        List.dropWhile_cons_of_neg hx, List.cons_append]

theorem not_mem_dropWhile {c : Char} {l : Str} (h : c ∉ l) :
    c ∉ l.dropWhile isWs :=
  fun hm => h ((List.dropWhile_sublist isWs).subset hm)

/-- A nonempty newline-joined list of lines ends in one of its lines. -/
theorem joinLines_decomp_last (lines : List Str) (hne : lines ≠ []) :
    ∃ front last, joinLines lines = front ++ last ∧ last ∈ lines := by
  induction lines with
  | nil => exact absurd rfl hne
  | cons l ls ih =>
    cases ls with
    | nil => exact ⟨[], l, rfl, List.mem_cons_self l []⟩
    | cons b bs =>
      rcases ih (by simp) with ⟨front, last, heq, hmem⟩
      refine ⟨l ++ '\n' :: front, last, ?_, List.mem_cons_of_mem l hmem⟩
      simp only [joinLines, heq]
      simp

/-- A nonempty newline-joined list of lines starts with its first line. -/
theorem joinLines_decomp_head (L : Str) (rest : List Str) :
    ∃ b, joinLines (L :: rest) = L ++ b := by
  cases rest with
  | nil => exact ⟨[], by simp [joinLines]⟩
  | cons x xs => exact ⟨'\n' :: joinLines (x :: xs), rfl⟩

theorem count_joinLines (lines : List Str) (hne : lines ≠ [])
    (h : ∀ l ∈ lines, '\n' ∉ l) :
    (joinLines lines).count '\n' = lines.length - 1 := by
  induction lines with
  | nil => exact absurd rfl hne
  | cons l ls ih =>
    cases ls with
    | nil =>
      simp only [joinLines, List.length_cons, List.length_nil]
      rw [List.count_eq_zero.mpr (h l (List.mem_cons_self l []))]
    | cons b bs =>
      have hrec := ih (by simp) (fun x hx => h x (List.mem_cons_of_mem l hx))
      simp only [joinLines] at hrec ⊢
      rw [List.count_append, List.count_eq_zero.mpr (h l (List.mem_cons_self l _)),
        List.count_cons]
      simp only [List.length_cons, beq_self_eq_true, if_true] at hrec ⊢
      omega

/-- Left-trimming a newline-joined list of lines whose first line holds a
non-whitespace character trims inside the first line only. -/
theorem dropWhile_joinLines (L : Str) (rest : List Str)
    (h : ∃ c ∈ L, isWs c = false) :
    (joinLines (L :: rest)).dropWhile isWs =
      joinLines (L.dropWhile isWs :: rest) := by
  cases rest with
  | nil => rfl
  | cons b bs =>
    simp only [joinLines]
    exact dropWhile_append_of_not_all L ('\n' :: joinLines (b :: bs)) h

/-- Left-trimming a string whose leading newline-free segment holds a
non-whitespace character does not change its newline count. -/
theorem count_dropWhile_of_decomp (a b : Str) (hnl : '\n' ∉ a)
    (hws : ∃ c ∈ a, isWs c = false) :
    ((a ++ b).dropWhile isWs).count '\n' = (a ++ b).count '\n' := by
  rw [dropWhile_append_of_not_all a b hws, List.count_append, List.count_append,
    List.count_eq_zero.mpr hnl, List.count_eq_zero.mpr (not_mem_dropWhile hnl)]

/-- Trimming a newline-joined list of lines, each newline-free and holding
a non-whitespace character, does not change its newline count: the number
of lines is recoverable after `trim`. -/
theorem count_jsTrim_joinLines (lines : List Str) (hne : lines ≠ [])
    (h : ∀ l ∈ lines, '\n' ∉ l ∧ ∃ c ∈ l, isWs c = false) :
    (jsTrim (joinLines lines)).count '\n' = lines.length - 1 := by
  obtain ⟨L1, rest, rfl⟩ : ∃ L1 rest, lines = L1 :: rest := by
    cases lines with
    | nil => exact absurd rfl hne
    | cons a as => exact ⟨a, as, rfl⟩
  have hL1 := h L1 (List.mem_cons_self L1 rest)
  -- the left trim stays inside the first line
  have hA : (joinLines (L1 :: rest)).dropWhile isWs =
      joinLines (L1.dropWhile isWs :: rest) := dropWhile_joinLines L1 rest hL1.2
  -- the trimmed-line list still satisfies the per-line conditions
  have hcond : ∀ l ∈ (L1.dropWhile isWs :: rest),
      '\n' ∉ l ∧ ∃ c ∈ l, isWs c = false := by
    intro l hl
    rcases List.mem_cons.mp hl with rfl | hl
    · exact ⟨not_mem_dropWhile hL1.1, exists_not_ws_dropWhile L1 hL1.2⟩
    · exact h l (List.mem_cons_of_mem L1 hl)
  -- left trim preserves the newline count
  have step1 : ((joinLines (L1 :: rest)).dropWhile isWs).count '\n' =
      (joinLines (L1 :: rest)).count '\n' := by
    obtain ⟨b, hb⟩ := joinLines_decomp_head L1 rest
    rw [hb]
    exact count_dropWhile_of_decomp L1 b hL1.1 hL1.2
  -- the right trim stays inside the last line
  obtain ⟨front, last, hAeq, hlastmem⟩ :=
    joinLines_decomp_last (L1.dropWhile isWs :: rest) (List.cons_ne_nil _ _)
  have hlast := hcond last hlastmem
  have step2 : ((joinLines (L1.dropWhile isWs :: rest)).reverse.dropWhile isWs).count '\n' =
      (joinLines (L1.dropWhile isWs :: rest)).reverse.count '\n' := by
    rw [hAeq, List.reverse_append]
    refine count_dropWhile_of_decomp last.reverse front.reverse ?_ ?_
    · simpa [List.mem_reverse] using hlast.1
    · rcases hlast.2 with ⟨c, hc, hcw⟩
      exact ⟨c, List.mem_reverse.mpr hc, hcw⟩
  -- assemble
  unfold jsTrim
  rw [hA, List.count_reverse, step2, List.count_reverse, ← hA, step1]
  exact count_joinLines (L1 :: rest) (List.cons_ne_nil _ _) (fun l hl => (h l hl).1)

/-! ### The claims -/

/-- C1: the summary reporter selects exactly one of four messages, and for
every combination of (criticalCount, importantCount, failedCount,
warningCount) the selection follows the stated precedence: all-clear when
failedCount = 0 and warningCount = 0; else working-correctly when
criticalCount = 0 and importantCount = 0; else must-fix when
criticalCount > 0; else the recommended-items default.  The four cases
are mutually exclusive and exhaustive (each characterised by an iff). -/
theorem summary_message_selection (c i f w : ℕ) :
    (summarySelect c i f w = 0 ↔ (f = 0 ∧ w = 0)) ∧
    (summarySelect c i f w = 1 ↔ (¬(f = 0 ∧ w = 0) ∧ c = 0 ∧ i = 0)) ∧
    (summarySelect c i f w = 2 ↔ (¬(f = 0 ∧ w = 0) ∧ ¬(c = 0 ∧ i = 0) ∧ 0 < c)) ∧
    (summarySelect c i f w = 3 ↔ (¬(f = 0 ∧ w = 0) ∧ ¬(c = 0 ∧ i = 0) ∧ ¬0 < c)) := by
  unfold summarySelect
  split_ifs with h1 h2 h3 <;> simp_all

/-- C3: the completion percentage equals
round(100 × passedCount / (passedCount + failedCount + warnedCount)),
and is exactly 0 when all three counts are 0 (the guard avoids the
division by zero); equivalently it is the integer
(200·passed + total) / (2·total) in natural division. -/
theorem completion_rate_formula (p f w : ℕ) :
    passRate p f w =
      (if p + f + w = 0 then 0
       else round ((100 * (p : ℚ)) / ((p : ℚ) + (f : ℚ) + (w : ℚ)))) ∧
    passRate p f w = ((200 * p + (p + f + w)) / (2 * (p + f + w)) : ℕ) := by
  have hclosed : ∀ _ : 0 < p + f + w,
      round (((p : ℚ) / ((p + f + w : ℕ) : ℚ)) * 100) =
        ((200 * p + (p + f + w)) / (2 * (p + f + w)) : ℕ) := by
    intro hpos
    have ht : ((p + f + w : ℕ) : ℚ) ≠ 0 := Nat.cast_ne_zero.mpr (by omega)
    have ht' : (p : ℚ) + (f : ℚ) + (w : ℚ) ≠ 0 := by
      push_cast at ht
      exact ht
    rw [round_eq]
    have key : ((p : ℚ) / ((p + f + w : ℕ) : ℚ)) * 100 + 1 / 2 =
        ((200 * p + (p + f + w) : ℕ) : ℚ) / ((2 * (p + f + w) : ℕ) : ℚ) := by
      push_cast
      field_simp
      ring
    rw [key, Rat.floor_natCast_div_natCast]
    exact (Int.natCast_div _ _).symm
  by_cases h : p + f + w = 0
  · have hp : p = 0 := by omega
    have hf : f = 0 := by omega
    have hw : w = 0 := by omega
    subst hp; subst hf; subst hw
    constructor
    · simp [passRate]
    · simp [passRate]
  · have hpos : 0 < p + f + w := by omega
    constructor
    · rw [if_neg h]
      unfold passRate
      rw [if_pos hpos]
      rw [hclosed hpos]
      have harg : (100 * (p : ℚ)) / ((p : ℚ) + (f : ℚ) + (w : ℚ)) =
          ((p : ℚ) / ((p + f + w : ℕ) : ℚ)) * 100 := by
        push_cast
        ring
      rw [harg, hclosed hpos]
    · unfold passRate
      rw [if_pos hpos]
      exact hclosed hpos

/-- C8: when the editor path passed to the extension probe is absent, the
probe runs no command, prints the section header plus the two-line
informational skip notice (exactly one line is the skip line, marked
`⊘`), and leaves the accumulator untouched. -/
theorem ext_probe_skip_frame (env : Env) (r : Results) :
    checkExtensions env none r =
      ⟨[], headerOut (str "Checking VS Code Extensions") ++
        [str "⊘ Skipping extensions check - VS Code not found",
         str "  Install VS Code first, then run this script again"], r⟩ ∧
    ((checkExtensions env none r).out.countP
      (fun l => l.head? == some '⊘')) = 1 ∧
    (checkExtensions env none r).cmds = [] ∧
    (checkExtensions env none r).res = r := by
  refine ⟨rfl, ?_, rfl, rfl⟩
  rfl

/-- C9: when a help flag is present in the arguments, the program prints
the static usage text and exits with status 0 before any probe runs: no
command execution, no accumulator entry. -/
theorem help_flag_early_exit (env : Env)
    (h : (env.argv.contains (str "--help") || env.argv.contains (str "-h")) = true) :
    program env = ⟨⟨[], [helpText], emptyResults⟩, 0⟩ := by
  unfold program
  rw [if_pos h]

/-- A minimal environment whose argument vector carries the help flag. -/
def envHelp : Env :=
  ⟨.other, fun _ => none, fun _ => false, [], none, none, none, [], [str "--help"]⟩

/-- Witness for C9 at a concrete environment. -/
theorem help_flag_early_exit_witness :
    program envHelp = ⟨⟨[], [helpText], emptyResults⟩, 0⟩ :=
  help_flag_early_exit envHelp (by decide)

/-- C10 (implicit): installed-extension membership is whole-line equality
after lowercasing, not substring search: the membership test succeeds
exactly when some complete line of the installed-extensions output equals
the identifier up to case; an identifier occurring merely as a substring
of a longer installed identifier does not count. -/
theorem ext_match_whole_line :
    (∀ s extId : Str, extInstalled s extId = true ↔
      ∃ line ∈ jsSplit '\n' s, jsToLower line = jsToLower extId) ∧
    (jsIncludes (str "x.eamodio.gitlens-go") (str "eamodio.gitlens") = true ∧
     extInstalled (str "x.eamodio.gitlens-go") (str "eamodio.gitlens") = false) := by
  constructor
  · intro s extId
    unfold extInstalled
    rw [arrIncludes_iff, jsSplit_jsToLower, List.mem_map]
  · exact ⟨by decide, by decide⟩

/-- An environment whose configured email contains an institutional
domain string without ending in it. -/
def envEmailSub : Env :=
  ⟨.other,
   (fun c =>
     if c = str "git --version" then some (str "git version 2.39.0")
     else if c = str "git config --global user.name" then some (str "A Student")
     else if c = str "git config --global user.email" then some (str "a@ocadu.ca.x")
     else none),
   fun _ => false, [], none, none, none, [], []⟩

/-- Counterexample to C4: the configured email `a@ocadu.ca.x` ends with
neither institutional domain suffix, yet the probe reports the plain
institutional-match success and emits no warning — matching is substring
containment, not a suffix match. -/
theorem email_suffix_counterexample :
    endsWith (str "a@ocadu.ca.x") (str "@ocadu.ca") = false ∧
    endsWith (str "a@ocadu.ca.x") (str "@ocad.ca") = false ∧
    (checkGit envEmailSub emptyResults).res.warnings = [] ∧
    str "OCADU email configured" ∈ (checkGit envEmailSub emptyResults).res.passed := by
  refine ⟨by decide, by decide, ?_, ?_⟩ <;> decide

/-- C4 as amended: the institutional-email check uses JS substring
containment of `@ocadu.ca` / `@ocad.ca`, not a suffix match.  An email
containing either string yields the plain success and no warning; one
containing neither yields the optional-severity warning (recorded in
warning-items only) whose fix payload echoes the current email (the fix
steps of a warning are carried but not printed by `printResult`). -/
theorem email_domain_substring (email : Str) (r : Results) :
    ((jsIncludes email (str "@ocadu.ca") || jsIncludes email (str "@ocad.ca")) = true →
      (gitEmailSection email r).2 =
        { r with passed := r.passed ++ [str "OCADU email configured"] }) ∧
    ((jsIncludes email (str "@ocadu.ca") || jsIncludes email (str "@ocad.ca")) = false →
      (gitEmailSection email r).2 =
        { r with warnings := r.warnings ++ [str "Non-OCADU email"] } ∧
      str "Current email: " ++ email ∈ emailWarnFix email) := by
  constructor
  · intro h
    unfold gitEmailSection
    rw [if_pos h]
    rfl
  · intro h
    unfold gitEmailSection
    rw [if_neg (by simp [h])]
    exact ⟨rfl, by simp [emailWarnFix]⟩

/-- Witness for C4's amended theorem on both branches. -/
theorem email_domain_substring_witness :
    (gitEmailSection (str "s@ocadu.ca") emptyResults).2 =
      { emptyResults with
        passed := emptyResults.passed ++ [str "OCADU email configured"] } ∧
    (gitEmailSection (str "s@gmail.com") emptyResults).2 =
      { emptyResults with
        warnings := emptyResults.warnings ++ [str "Non-OCADU email"] } :=
  ⟨(email_domain_substring (str "s@ocadu.ca") emptyResults).1 (by decide),
   ((email_domain_substring (str "s@gmail.com") emptyResults).2 (by decide)).1⟩

/-- C5: extension identifier matching is case-insensitive: when some line
of the installed-extensions output equals a required identifier up to
letter-casing, the membership test counts it installed, and the
per-extension loop body then reports a success (appending only to
passed-items, running no extra command). -/
theorem ext_match_case_insensitive :
    (∀ (installed extId line : Str), line ∈ jsSplit '\n' installed →
      jsToLower line = jsToLower extId → extInstalled installed extId = true) ∧
    (∀ (env : Env) (vscodePath installed : Str) (acc : Step) (e : ExtReq),
      extInstalled installed e.id = true →
      (extStep env vscodePath installed acc e).res =
        { acc.res with passed := acc.res.passed ++ [str "Extension: " ++ e.name] } ∧
      (extStep env vscodePath installed acc e).cmds = acc.cmds) := by
  constructor
  · intro installed extId line hmem hlow
    unfold extInstalled
    rw [arrIncludes_iff, jsSplit_jsToLower]
    exact List.mem_map.mpr ⟨line, hmem, hlow⟩
  · intro env p installed acc e hins
    unfold extStep
    rw [if_pos hins]
    exact ⟨rfl, rfl⟩

/-- A minimal environment and accumulator for the C5 witness. -/
def envExt : Env := ⟨.other, fun _ => none, fun _ => false, [], none, none, none, [], []⟩

/-- Witness for C5: a mixed-case installed line counts as installed, and
the loop body records the success. -/
theorem ext_match_case_insensitive_witness :
    extInstalled (str "foo.one\nEAModio.GitLens") (str "eamodio.gitlens") = true ∧
    (extStep envExt (str "code") (str "eamodio.gitlens") ⟨[], [], emptyResults⟩
        ⟨str "eamodio.gitlens", str "GitLens", .important, str "r"⟩).res =
      { emptyResults with
        passed := emptyResults.passed ++ [str "Extension: " ++ str "GitLens"] } :=
  ⟨ext_match_case_insensitive.1 _ _ (str "EAModio.GitLens") (by decide) (by decide),
   (ext_match_case_insensitive.2 envExt (str "code") (str "eamodio.gitlens")
     ⟨[], [], emptyResults⟩ ⟨str "eamodio.gitlens", str "GitLens", .important, str "r"⟩
     (by decide)).1⟩

/-- C6: repository status classification.  When the status query result
trims to blank, the probe reports the clean success; when it trims to N
newline-joined non-empty lines (each holding a non-whitespace character),
the probe reports a warning citing exactly N uncommitted changes. -/
theorem repo_status_classification (env : Env) (r : Results) :
    (∀ raw, env.run (str "git status --porcelain") = some raw → jsTrim raw = [] →
      (repoStatusPart env r).res =
        { r with passed := r.passed ++ [str "Clean working directory"] }) ∧
    (∀ raw lines, env.run (str "git status --porcelain") = some raw →
      jsTrim raw = joinLines lines →
      lines ≠ [] →
      (∀ l ∈ lines, '\n' ∉ l ∧ ∃ c ∈ l, isWs c = false) →
      (repoStatusPart env r).res =
        { r with warnings := r.warnings ++ [str "Uncommitted changes"] } ∧
      statusSym .warning ++ str " " ++
          (str "You have " ++ natStr lines.length ++ str " uncommitted change(s)") ∈
        (repoStatusPart env r).out) := by
  constructor
  · intro raw hraw htrim
    simp only [repoStatusPart, executeCommand, hraw, Option.map_some', htrim]
    rfl
  · intro raw lines hraw htrim hne hlines
    have hjoin_ne : joinLines lines ≠ [] := by
      obtain ⟨L1, rest, rfl⟩ : ∃ L1 rest, lines = L1 :: rest := by
        cases lines with
        | nil => exact absurd rfl hne
        | cons a as => exact ⟨a, as, rfl⟩
      obtain ⟨b, hb⟩ := joinLines_decomp_head L1 rest
      rcases (hlines L1 (List.mem_cons_self L1 rest)).2 with ⟨c, hc, _⟩
      rw [hb]
      intro habs
      have hL1 : L1 = [] := (List.append_eq_nil.mp habs).1
      rw [hL1] at hc
      exact absurd hc (List.not_mem_nil c)
    have hcount : (jsSplit '\n' (jsTrim (joinLines lines))).length = lines.length := by
      rw [length_jsSplit, count_jsTrim_joinLines lines hne hlines]
      have : lines.length ≠ 0 := fun h0 => hne (List.length_eq_zero.mp h0)
      omega
    have htru : asTruthy (some (joinLines lines)) = some (joinLines lines) := by
      obtain ⟨c0, cs0, hjl⟩ : ∃ c0 cs0, joinLines lines = c0 :: cs0 := by
        cases hj : joinLines lines with
        | nil => exact absurd hj hjoin_ne
        | cons a as => exact ⟨a, as, rfl⟩
      rw [hjl]
      simp [asTruthy]
    simp only [repoStatusPart, executeCommand, hraw, Option.map_some', htrim, htru,
      printResult]
    refine ⟨by trivial, ?_⟩
    rw [hcount]
    exact List.mem_cons_self _ _

/-- An environment whose status query yields two porcelain lines. -/
def envStatusTwo : Env :=
  ⟨.other,
   (fun c => if c = str "git status --porcelain"
             then some (str " M a.txt\n?? b.txt") else none),
   fun _ => false, [], none, none, none, [], []⟩

/-- An environment whose status query yields only whitespace. -/
def envStatusClean : Env :=
  ⟨.other,
   (fun c => if c = str "git status --porcelain" then some (str "  ") else none),
   fun _ => false, [], none, none, none, [], []⟩

/-- Witness for C6 on both branches: a blank result is reported clean; a
two-line result is reported as exactly 2 uncommitted changes. -/
theorem repo_status_classification_witness :
    (repoStatusPart envStatusClean emptyResults).res =
      { emptyResults with
        passed := emptyResults.passed ++ [str "Clean working directory"] } ∧
    (repoStatusPart envStatusTwo emptyResults).res =
      { emptyResults with
        warnings := emptyResults.warnings ++ [str "Uncommitted changes"] } ∧
    statusSym .warning ++ str " " ++
        (str "You have " ++ natStr ([str "M a.txt", str "?? b.txt"] : List Str).length ++
          str " uncommitted change(s)") ∈
      (repoStatusPart envStatusTwo emptyResults).out :=
  ⟨(repo_status_classification envStatusClean emptyResults).1 (str "  ")
      (by decide) (by decide),
   ((repo_status_classification envStatusTwo emptyResults).2
      (str " M a.txt\n?? b.txt") [str "M a.txt", str "?? b.txt"]
      (by decide) (by decide) (by decide) (by decide)).1,
   ((repo_status_classification envStatusTwo emptyResults).2
      (str " M a.txt\n?? b.txt") [str "M a.txt", str "?? b.txt"]
      (by decide) (by decide) (by decide) (by decide)).2⟩

/-- An environment whose tool version query throws (the tool is
absent). -/
def envGitAbsent : Env :=
  ⟨.other, fun _ => none, fun _ => false, [], none, none, none, [], []⟩

/-- C7: when the version-control tool is absent, the tool check reports a
critical failure and the probe returns at once: exactly one command was
executed (the version query) and the accumulator gains only the critical
failure entries — no identity entry of any kind. -/
theorem git_absent_short_circuit (env : Env) (r : Results)
    (h : env.run (str "git --version") = none) :
    (checkGit env r).cmds = [str "git --version"] ∧
    (checkGit env r).res =
      { r with failed := r.failed ++ [str "Git not found"],
               critical := r.critical ++ [str "Git is NOT installed"] } := by
  simp only [checkGit, executeCommand, h, Option.map_none', asTruthy]
  exact ⟨trivial, rfl⟩

/-- Witness for C7 at a concrete environment. -/
theorem git_absent_short_circuit_witness :
    (checkGit envGitAbsent emptyResults).cmds = [str "git --version"] ∧
    (checkGit envGitAbsent emptyResults).res =
      { emptyResults with
        failed := emptyResults.failed ++ [str "Git not found"],
        critical := emptyResults.critical ++ [str "Git is NOT installed"] } :=
  git_absent_short_circuit envGitAbsent emptyResults rfl

/-! ### The accumulator's bucket invariant (C2) -/

/-- The severity buckets hold exactly the failures: their total size
matches the failed-items list.  (Severity-tagged warnings reach no
bucket.) -/
def BucketInv (r : Results) : Prop :=
  r.critical.length + r.important.length + r.optional.length = r.failed.length

theorem bucketInv_checkNode (env : Env) (r : Results) (h : BucketInv r) :
    BucketInv (checkNode env r).res := by
  unfold BucketInv at h ⊢
  simp only [checkNode]
  cases asTruthy (executeCommand env (str "node --version")) <;>
    cases asTruthy (executeCommand env (str "npm --version")) <;>
      simp [printResult, pushBucket, List.length_append] <;> omega

theorem bucketInv_checkVSCode (env : Env) (r : Results) (h : BucketInv r) :
    BucketInv (checkVSCode env r).1.res := by
  unfold BucketInv at h ⊢
  simp only [checkVSCode]
  repeat' split
  all_goals simp [printResult, pushBucket, List.length_append]
  all_goals omega

theorem bucketInv_extStep (env : Env) (p installed : Str) (acc : Step) (e : ExtReq)
    (h : BucketInv acc.res) : BucketInv (extStep env p installed acc e).res := by
  unfold BucketInv at h ⊢
  simp only [extStep]
  split
  · simp [printResult, List.length_append]
    omega
  · cases e.criticality <;>
      simp [printResult, pushBucket, List.length_append] <;> omega

theorem bucketInv_extFold (env : Env) (p installed : Str) :
    ∀ (ls : List ExtReq) (acc : Step), BucketInv acc.res →
      BucketInv (ls.foldl (extStep env p installed) acc).res := by
  intro ls
  induction ls with
  | nil => intro acc h; simpa using h
  | cons e es ih =>
    intro acc h
    exact ih _ (bucketInv_extStep env p installed acc e h)

theorem bucketInv_checkExtensions (env : Env) (vp : Option Str) (r : Results)
    (h : BucketInv r) : BucketInv (checkExtensions env vp r).res := by
  simp only [checkExtensions]
  cases vp with
  | none => exact h
  | some p =>
    cases h2 : asTruthy (executeCommand env (quote p ++ str " --list-extensions")) with
    | none =>
      simp only [h2]
      exact h
    | some installed =>
      simp only [h2]
      exact bucketInv_extFold env p installed requiredExtensions _ h

theorem bucketInv_checkGit (env : Env) (r : Results) (h : BucketInv r) :
    BucketInv (checkGit env r).res := by
  unfold BucketInv at h ⊢
  simp only [checkGit, gitEmailSection]
  repeat' split
  all_goals simp [printResult, pushBucket, List.length_append]
  all_goals omega

theorem bucketInv_repoRemotePart (env : Env) (r : Results) (h : BucketInv r) :
    BucketInv (repoRemotePart env r).res := by
  unfold BucketInv at h ⊢
  simp only [repoRemotePart]
  repeat' split
  all_goals simp [printResult, pushBucket, List.length_append]
  all_goals omega

theorem bucketInv_repoBranchPart (env : Env) (r : Results) (h : BucketInv r) :
    BucketInv (repoBranchPart env r).res := by
  unfold BucketInv at h ⊢
  simp only [repoBranchPart]
  repeat' split
  all_goals simp [printResult, pushBucket, List.length_append]
  all_goals omega

theorem bucketInv_repoStatusPart (env : Env) (r : Results) (h : BucketInv r) :
    BucketInv (repoStatusPart env r).res := by
  unfold BucketInv at h ⊢
  simp only [repoStatusPart]
  repeat' split
  all_goals simp [printResult, pushBucket, List.length_append]
  all_goals omega

theorem bucketInv_checkLocalRepo (env : Env) (r : Results) (h : BucketInv r) :
    BucketInv (checkLocalRepo env r).res := by
  simp only [checkLocalRepo]
  split
  · apply bucketInv_repoStatusPart
    apply bucketInv_repoBranchPart
    apply bucketInv_repoRemotePart
    unfold BucketInv at h ⊢
    simp [printResult, List.length_append]
    omega
  · unfold BucketInv at h ⊢
    simp [printResult, pushBucket, List.length_append]
    omega

theorem bucketInv_program (env : Env) : BucketInv (program env).step.res := by
  unfold program
  split
  · simp [BucketInv, emptyResults]
  · unfold mainRun
    dsimp only
    exact bucketInv_checkLocalRepo _ _
      (bucketInv_checkGit _ _
        (bucketInv_checkExtensions _ _ _
          (bucketInv_checkVSCode _ _
            (bucketInv_checkNode _ _ (by simp [BucketInv, emptyResults])))))

/-- An environment where the runtime is present but the package manager
is absent, making the probe emit a severity-tagged warning. -/
def envNpm : Env :=
  ⟨.other,
   (fun c => if c = str "node --version" then some (str "v20.1.0") else none),
   fun _ => false, [], none, none, none, [], []⟩

/-- Counterexample to C2: the package-manager warning carries OPTIONAL
severity (index.js lines 522-531), is recorded in warning-items, yet
lands in no severity bucket — `printResult` pushes a bucket only for
failures. -/
theorem bucket_warning_counterexample :
    (checkNode envNpm emptyResults).res.warnings = [str "npm not found"] ∧
    (checkNode envNpm emptyResults).res.critical = [] ∧
    (checkNode envNpm emptyResults).res.important = [] ∧
    (checkNode envNpm emptyResults).res.optional = [] := by
  refine ⟨?_, ?_, ?_, ?_⟩ <;> decide

/-- C2 as amended: every failure outcome is recorded in exactly one
severity bucket (the one named by its criticality option) and in the
failed-items list — over any full program run the bucket totals equal the
failed-items count; success and warning outcomes never touch a severity
bucket (severity-tagged warnings are recorded in warning-items only). -/
theorem accumulator_bucket_invariant :
    (∀ env : Env,
      (program env).step.res.critical.length +
        (program env).step.res.important.length +
        (program env).step.res.optional.length =
        (program env).step.res.failed.length) ∧
    (∀ (m d : Str) (fx : Option (List Str)) (lk : Option Str) (r : Results),
      (printResult .failure m d (some .critical) fx lk r).2 =
        { r with critical := r.critical ++ [m] } ∧
      (printResult .failure m d (some .important) fx lk r).2 =
        { r with important := r.important ++ [m] } ∧
      (printResult .failure m d (some .optional) fx lk r).2 =
        { r with optional := r.optional ++ [m] }) ∧
    (∀ (m d : Str) (c : Option Crit) (fx : Option (List Str)) (lk : Option Str)
        (r : Results),
      (printResult .success m d c fx lk r).2 = r ∧
      (printResult .warning m d c fx lk r).2 = r) := by
  refine ⟨fun env => bucketInv_program env, ?_, ?_⟩
  · intro m d fx lk r
    exact ⟨rfl, rfl, rfl⟩
  · intro m d c fx lk r
    exact ⟨rfl, rfl⟩

end VSC
